import Mathlib

/-!
Verification of the San Jose police-calls analytics dashboard (src/app.py).

The dashboard's computational content is seven SQL aggregation pipelines over a
table of call records.  We embed the record type and each pipeline as pure Lean
functions and prove the specified properties about them.

Modelling conventions:
* Timestamps (`call_datetime`, `dispatch_datetime`) are minutes since an epoch
  chosen so that minute 0 falls on a Monday at 00:00.  MySQL's
  `TIMESTAMPDIFF(HOUR, a, b)` is `(b - a) / 60` (integer division, i.e. the
  number of complete hours), `TIMESTAMPDIFF(MINUTE, a, b)` is `b - a`, `HOUR(t)`
  is `t / 60 % 24`, `DAYNAME(t)` indexes `t / 1440 % 7` into Monday..Sunday,
  and `DATEDIFF(CURDATE(), t)` is `today - t / 1440` where `today` (the day
  number of `CURDATE()`) is passed as an explicit parameter.
* SQL `GROUP BY` is modelled by collecting the distinct key values of the
  filtered rows (`List.dedup`) and aggregating the rows of each key.  The order
  in which equal sort keys appear after `ORDER BY` is unspecified in SQL; the
  model determinises it with a stable insertion sort.
* Rational numbers stand for SQL DECIMAL/float arithmetic; `ROUND` is
  round-half-away-from-zero, as in MySQL.
* `priority` is a plain integer: the data model declares it present (1-5) for
  severity-weighted computations.  Nullable columns (`dispatch_datetime`,
  `call_type`, `address`) are `Option`s.
-/

/-- A stable insertion of `x` into `l` for a boolean comparator:
`x` is placed before the first element `y` with `le x y`. -/
def insertLe {α : Type} (le : α → α → Bool) (x : α) : List α → List α
  | [] => [x]
  | y :: ys => if le x y then x :: y :: ys else y :: insertLe le x ys

/-- Stable insertion sort with a boolean comparator; models SQL `ORDER BY`
(ties resolved deterministically by input order). -/
def sortByLe {α : Type} (le : α → α → Bool) : List α → List α
  | [] => []
  | x :: xs => insertLe le x (sortByLe le xs)

theorem perm_insertLe {α : Type} (le : α → α → Bool) (x : α) :
    ∀ l : List α, (insertLe le x l).Perm (x :: l) := by
  intro l
  induction l with
  | nil => simp [insertLe]
  | cons y ys ih =>
    simp only [insertLe]
    by_cases h : le x y
    · simp [h]
    · simp only [h, if_neg, Bool.false_eq_true, not_false_iff, ite_false]
      exact (ih.cons y).trans (List.Perm.swap x y ys)

theorem perm_sortByLe {α : Type} (le : α → α → Bool) :
    ∀ l : List α, (sortByLe le l).Perm l := by
  intro l
  induction l with
  | nil => simp [sortByLe]
  | cons x xs ih => exact (perm_insertLe le x (sortByLe le xs)).trans (ih.cons x)

theorem mem_sortByLe {α : Type} {le : α → α → Bool} {a : α} {l : List α} :
    a ∈ sortByLe le l ↔ a ∈ l :=
  (perm_sortByLe le l).mem_iff

theorem length_sortByLe {α : Type} (le : α → α → Bool) (l : List α) :
    (sortByLe le l).length = l.length :=
  (perm_sortByLe le l).length_eq

/-- MySQL `ROUND(x)`: round half away from zero to an integer. -/
def mysqlRound (q : ℚ) : Int := if 0 ≤ q then ⌊q + 1/2⌋ else -⌊1/2 - q⌋

/-- MySQL `ROUND(x, 2)`. -/
def mysqlRound2 (q : ℚ) : ℚ := (mysqlRound (q * 100) : ℚ) / 100

/-- MySQL `ROUND(x, 1)`. -/
def mysqlRound1 (q : ℚ) : ℚ := (mysqlRound (q * 10) : ℚ) / 10

/-- One row of the `police_calls` table (the input entity CallRecord).
`call_id` plays no role in any query and is omitted. -/
structure CallRecord where
  call_datetime : Nat
  dispatch_datetime : Option Nat
  call_type : Option String
  address : Option String
  priority : Int
  deriving DecidableEq, Repr

/-- `WHERE call_datetime BETWEEN s AND e` (inclusive on both ends). -/
def windowCalls (input : List CallRecord) (s e : Nat) : List CallRecord :=
  input.filter (fun r => decide (s ≤ r.call_datetime ∧ r.call_datetime ≤ e))

/-- In-window calls with `address IS NOT NULL`. -/
def addressedCalls (input : List CallRecord) (s e : Nat) : List CallRecord :=
  (windowCalls input s e).filter (fun r => r.address.isSome)

/-- The multiset of (non-null) addresses of the in-window calls. -/
def addrValues (input : List CallRecord) (s e : Nat) : List String :=
  (addressedCalls input s e).filterMap (fun r => r.address)

/-- The distinct addresses of the in-window calls (the `GROUP BY address` keys). -/
def addrKeys (input : List CallRecord) (s e : Nat) : List String :=
  (addrValues input s e).dedup

/-- The in-window calls at one address (the rows of that group). -/
def callsAt (input : List CallRecord) (s e : Nat) (a : String) : List CallRecord :=
  (addressedCalls input s e).filter (fun r => decide (r.address = some a))

/-- `COUNT(*)` of the address group (alias `total_calls`). -/
def total_calls_at (input : List CallRecord) (s e : Nat) (a : String) : Nat :=
  (callsAt input s e a).length

/-- `SUM(CASE WHEN priority <= 2 THEN 1 ELSE 0 END)` of the group (alias `severe_calls`). -/
def severe_calls_at (input : List CallRecord) (s e : Nat) (a : String) : Nat :=
  ((callsAt input s e a).filter (fun r => decide (r.priority ≤ 2))).length

/-- `AVG(priority)` of the group (alias `avg_priority`). -/
def avg_priority_at (input : List CallRecord) (s e : Nat) (a : String) : ℚ :=
  (((((callsAt input s e a).map (fun r => r.priority)).sum : Int) : ℚ)) /
    (total_calls_at input s e a : ℚ)

/-- `MAX(call_datetime)` of the group. -/
def last_call_at (input : List CallRecord) (s e : Nat) (a : String) : Nat :=
  ((callsAt input s e a).map (fun r => r.call_datetime)).foldr max 0

/-- `DATEDIFF(CURDATE(), MAX(call_datetime))` of the group (alias `days_since_last`),
with `today` the day number of `CURDATE()`. -/
def days_since_last_at (input : List CallRecord) (s e today : Nat) (a : String) : Int :=
  (today : Int) - (last_call_at input s e a / 1440 : Nat)

/-- The weighted risk formula of `load_risk_data` before rounding:
`total_calls * 0.3 + severe_calls * 2.0 + avg_priority * 10
 + (CASE WHEN days_since_last < 7 THEN 15 ELSE 0 END)`. -/
def raw_risk_score_at (input : List CallRecord) (s e today : Nat) (a : String) : ℚ :=
  (total_calls_at input s e a : ℚ) * (3/10) +
  (severe_calls_at input s e a : ℚ) * 2 +
  avg_priority_at input s e a * 10 +
  (if days_since_last_at input s e today a < 7 then 15 else 0)

/-- `risk_score`: the rounded weighted formula. -/
def risk_score_at (input : List CallRecord) (s e today : Nat) (a : String) : ℚ :=
  mysqlRound2 (raw_risk_score_at input s e today a)

/-- The four risk buckets of `load_risk_data`. -/
inductive RiskBand where
  | lower
  | moderate
  | high
  | critical
  deriving DecidableEq, Repr

/-- `pd.cut(risk_score, bins=[0, 70, 80, 90, inf], labels=[...])`: half-open
bins, each right edge inclusive; values outside every bin (here: `q ≤ 0`) get
no label (`NaN`). -/
def riskCategory (q : ℚ) : Option RiskBand :=
  if 0 < q ∧ q ≤ 70 then some RiskBand.lower
  else if 70 < q ∧ q ≤ 80 then some RiskBand.moderate
  else if 80 < q ∧ q ≤ 90 then some RiskBand.high
  else if 90 < q then some RiskBand.critical
  else none

/-- One output row of `load_risk_data` (the derived entity RiskRecord). -/
structure RiskRow where
  address : String
  total_calls : Nat
  severe_calls : Nat
  days_since_last : Int
  risk_score : ℚ
  risk_category : Option RiskBand
  deriving DecidableEq, Repr

/-- The row `load_risk_data` produces for one address. -/
def riskRowAt (input : List CallRecord) (s e today : Nat) (a : String) : RiskRow :=
  { address := a
    total_calls := total_calls_at input s e a
    severe_calls := severe_calls_at input s e a
    days_since_last := days_since_last_at input s e today a
    risk_score := risk_score_at input s e today a
    risk_category := riskCategory (risk_score_at input s e today a) }

/-- `load_risk_data`: group in-window calls by non-null address, keep groups
with `total_calls >= 10` (`HAVING`), score them, `ORDER BY risk_score DESC`,
`LIMIT 25`, and label each kept row with its `pd.cut` risk category. -/
def load_risk_data (input : List CallRecord) (s e today : Nat) : List RiskRow :=
  (sortByLe (fun x y => decide (y.risk_score ≤ x.risk_score))
    (((addrKeys input s e).filter
        (fun a => decide (10 ≤ total_calls_at input s e a))).map
      (riskRowAt input s e today))).take 25

/-- `TIMESTAMPDIFF(HOUR, p, t) <= 24` for `p ≤ t`: the gap truncated to whole
hours is at most 24. -/
def gapLinked (p t : Nat) : Bool := decide ((t - p) / 60 ≤ 24)

/-- The chain predicate of `load_incident_chain_data`, one flag per call of an
address's time-sorted call list: the call is linked when
`TIMESTAMPDIFF(HOUR, prev_call_time, call_datetime) <= 24` (`LAG`) or
`TIMESTAMPDIFF(HOUR, call_datetime, next_call_time) <= 24` (`LEAD`); a `NULL`
neighbour fails the comparison. -/
def linkedFlags : Option Nat → List Nat → List Bool
  | _, [] => []
  | prev, t :: rest =>
    ((match prev with
      | some p => gapLinked p t
      | none => false) ||
     (match rest.head? with
      | some nx => gapLinked t nx
      | none => false)) :: linkedFlags (some t) rest

/-- An address's in-window calls sorted by `call_datetime`
(the `PARTITION BY address ORDER BY call_datetime` window). -/
def sortedCallsAt (input : List CallRecord) (s e : Nat) (a : String) : List CallRecord :=
  sortByLe (fun x y => decide (x.call_datetime ≤ y.call_datetime)) (callsAt input s e a)

/-- The sorted call times of an address. -/
def timesAt (input : List CallRecord) (s e : Nat) (a : String) : List Nat :=
  (sortedCallsAt input s e a).map (fun r => r.call_datetime)

/-- `incidents_24h`: the number of the address's calls passing the chain
predicate (`COUNT(*)` over the `WHERE`-filtered partition). -/
def incidents_24h_at (input : List CallRecord) (s e : Nat) (a : String) : Nat :=
  (linkedFlags none (timesAt input s e a)).count true

/-- The chain-linked calls themselves (the rows surviving the `WHERE`),
used for `MIN(priority)`. -/
def linkedCallsAt (input : List CallRecord) (s e : Nat) (a : String) : List CallRecord :=
  ((sortedCallsAt input s e a).zip (linkedFlags none (timesAt input s e a))).filterMap
    (fun p => if p.2 then some p.1 else none)

/-- `MIN(priority)` over a (nonempty) group; 0 as the vacuous default. -/
def minPriority (l : List Int) : Int :=
  match l with
  | [] => 0
  | x :: xs => xs.foldl min x

/-- One output row of `load_incident_chain_data` (the derived entity ChainRecord). -/
structure ChainRow where
  address : String
  incidents_24h : Nat
  highest_priority : Int
  chain_length : Int
  deriving DecidableEq, Repr

/-- The row `load_incident_chain_data` produces for one address:
`chain_length = ROUND(incidents_24h / 2.0)`. -/
def chainRowAt (input : List CallRecord) (s e : Nat) (a : String) : ChainRow :=
  { address := a
    incidents_24h := incidents_24h_at input s e a
    highest_priority := minPriority ((linkedCallsAt input s e a).map (fun r => r.priority))
    chain_length := mysqlRound ((incidents_24h_at input s e a : ℚ) / 2) }

/-- `load_incident_chain_data`: per non-null address, count the calls within a
(truncated) 24 hours of their previous or next call at that address, keep
addresses with `incidents_24h >= 3` (`HAVING`), `ORDER BY incidents_24h DESC`,
`LIMIT 15`. -/
def load_incident_chain_data (input : List CallRecord) (s e : Nat) : List ChainRow :=
  (sortByLe (fun x y => decide (y.incidents_24h ≤ x.incidents_24h))
    (((addrKeys input s e).filter
        (fun a => decide (3 ≤ incidents_24h_at input s e a))).map
      (chainRowAt input s e))).take 15

/-- One output row of `load_pareto_data`. -/
structure ParetoRow where
  address : String
  calls : Nat
  rank : Nat
  cumulative_calls : Nat
  cumulative_pct : ℚ
  deriving DecidableEq, Repr

/-- The SQL part of `load_pareto_data`: per-address call counts,
`ORDER BY calls DESC LIMIT 50`. -/
def paretoBase (input : List CallRecord) (s e : Nat) : List (String × Nat) :=
  (sortByLe (fun x y => decide (y.2 ≤ x.2))
    ((addrKeys input s e).map (fun a => (a, total_calls_at input s e a)))).take 50

/-- `df['calls'].sum()`: the denominator of `cumulative_pct`, summed over the
returned (at most 50) rows. -/
def paretoSum (input : List CallRecord) (s e : Nat) : Nat :=
  ((paretoBase input s e).map (fun p => p.2)).sum

/-- The pandas part of `load_pareto_data`: ranks `1..`, cumulative call counts
and `cumulative_pct = cumulative_calls / S * 100` with `S` the calls sum of the
returned rows. -/
def paretoScan (S : ℚ) : Nat → Nat → List (String × Nat) → List ParetoRow
  | _, _, [] => []
  | rank, acc, p :: rest =>
    { address := p.1
      calls := p.2
      rank := rank
      cumulative_calls := acc + p.2
      cumulative_pct := ((acc + p.2 : Nat) : ℚ) / S * 100 } ::
      paretoScan S (rank + 1) (acc + p.2) rest

/-- `load_pareto_data`: top-50 addresses by call count with cumulative share. -/
def load_pareto_data (input : List CallRecord) (s e : Nat) : List ParetoRow :=
  paretoScan (paretoSum input s e : ℚ) 1 0 (paretoBase input s e)

/-- The grand total of in-window calls over all (non-null) addresses. -/
def grandTotalCalls (input : List CallRecord) (s e : Nat) : Nat :=
  (addressedCalls input s e).length

/-- `HOUR(call_datetime)`. -/
def hourOf (t : Nat) : Nat := t / 60 % 24

/-- The day-of-week index of a timestamp, 0 = Monday .. 6 = Sunday
(minute 0 of the epoch is a Monday 00:00). -/
def dayIdxOf (t : Nat) : Nat := t / 1440 % 7

/-- `DAYNAME(call_datetime)` from the day index. -/
def dayName (i : Nat) : String :=
  (["Monday", "Tuesday", "Wednesday", "Thursday", "Friday", "Saturday",
    "Sunday"]).getD i ""

/-- One output row of `load_heatmap_data`. -/
structure HeatRow where
  hour : Nat
  day : String
  calls : Nat
  deriving DecidableEq, Repr

/-- The `GROUP BY hour, day` keys present among the in-window calls. -/
def heatKeys (input : List CallRecord) (s e : Nat) : List (Nat × Nat) :=
  ((windowCalls input s e).map
    (fun r => (hourOf r.call_datetime, dayIdxOf r.call_datetime))).dedup

/-- `COUNT(*)` of one (hour, day) cell. -/
def cellCount (input : List CallRecord) (s e h d : Nat) : Nat :=
  ((windowCalls input s e).filter
    (fun r => decide (hourOf r.call_datetime = h ∧ dayIdxOf r.call_datetime = d))).length

/-- `load_heatmap_data`: counts per (hour, day-of-week) key present in the
window, `ORDER BY hour, FIELD(day, Monday..Sunday)`.  Only keys with at least
one call exist (`GROUP BY` produces no empty groups). -/
def load_heatmap_data (input : List CallRecord) (s e : Nat) : List HeatRow :=
  (sortByLe (fun x y => decide (x.1 < y.1 ∨ (x.1 = y.1 ∧ x.2 ≤ y.2)))
    (heatKeys input s e)).map
    (fun k => { hour := k.1, day := dayName k.2, calls := cellCount input s e k.1 k.2 })

/-- The `response_times` CTE of `load_response_time_data`: in-window calls with
`dispatch_datetime IS NOT NULL` and
`TIMESTAMPDIFF(MINUTE, call_datetime, dispatch_datetime) BETWEEN 0 AND 120`,
each contributing `(call_type, response_time)`. -/
def responseRows (input : List CallRecord) (s e : Nat) : List (Option String × Int) :=
  (windowCalls input s e).filterMap (fun r =>
    match r.dispatch_datetime with
    | none => none
    | some d =>
      if 0 ≤ (d : Int) - (r.call_datetime : Int) ∧ (d : Int) - (r.call_datetime : Int) ≤ 120
      then some (r.call_type, (d : Int) - (r.call_datetime : Int))
      else none)

/-- The `GROUP BY call_type` keys of the qualifying rows. -/
def responseTypes (input : List CallRecord) (s e : Nat) : List (Option String) :=
  ((responseRows input s e).map (fun p => p.1)).dedup

/-- The qualifying response times of one call type, as rationals. -/
def responseTimesOf (input : List CallRecord) (s e : Nat) (t : Option String) : List ℚ :=
  (responseRows input s e).filterMap
    (fun p => if p.1 = t then some ((p.2 : ℚ)) else none)

/-- `COUNT(*)` of one call type's qualifying rows (alias `total_calls`). -/
def response_count_at (input : List CallRecord) (s e : Nat) (t : Option String) : Nat :=
  (responseTimesOf input s e t).length

/-- `PERCENTILE_CONT(p) WITHIN GROUP (ORDER BY x)`: linear-interpolation
percentile of a sorted list; position `p * (n - 1)` between the sorted values. -/
def percentileCont (p : ℚ) (l : List ℚ) : ℚ :=
  let sorted := sortByLe (fun a b => decide (a ≤ b)) l
  let n := sorted.length
  if n = 0 then 0
  else
    let pos : ℚ := p * ((n - 1 : Nat) : ℚ)
    let i : Nat := (⌊pos⌋).toNat
    let lo := sorted.getD i 0
    let hi := sorted.getD (i + 1) lo
    lo + (pos - (i : ℚ)) * (hi - lo)

/-- One output row of `load_response_time_data`. -/
structure ResponseRow where
  call_type : Option String
  total_calls : Nat
  p50 : ℚ
  p75 : ℚ
  p90 : ℚ
  p95 : ℚ
  deriving DecidableEq, Repr

/-- The row `load_response_time_data` produces for one call type:
rounded P50/P75/P90/P95 of its qualifying response times. -/
def responseRowAt (input : List CallRecord) (s e : Nat) (t : Option String) : ResponseRow :=
  { call_type := t
    total_calls := response_count_at input s e t
    p50 := mysqlRound1 (percentileCont (1/2) (responseTimesOf input s e t))
    p75 := mysqlRound1 (percentileCont (3/4) (responseTimesOf input s e t))
    p90 := mysqlRound1 (percentileCont (9/10) (responseTimesOf input s e t))
    p95 := mysqlRound1 (percentileCont (19/20) (responseTimesOf input s e t)) }

/-- `load_response_time_data`: percentile rows per call type, restricted to
types with at least 50 qualifying calls (`HAVING total_calls >= 50`),
`ORDER BY p90 DESC LIMIT 10`. -/
def load_response_time_data (input : List CallRecord) (s e : Nat) : List ResponseRow :=
  (sortByLe (fun x y => decide (y.p90 ≤ x.p90))
    (((responseTypes input s e).filter
        (fun t => decide (50 ≤ response_count_at input s e t))).map
      (responseRowAt input s e))).take 10

/-- One output row of `load_monthly_data`. -/
structure MonthlyRow where
  month : Nat
  calls : Nat
  severe_calls : Nat
  running_total : Nat
  prev_month_calls : Option Nat
  pct_change : ℚ
  deriving DecidableEq, Repr

/-- The ascending list of distinct months of the in-window calls
(`GROUP BY month ORDER BY month`); `monthOf` abstracts the calendar map
`DATE_FORMAT(call_datetime, '%Y-%m-01')`, e.g. `fun t => t / 43200` for
30-day months. -/
def monthKeys (monthOf : Nat → Nat) (input : List CallRecord) (s e : Nat) : List Nat :=
  sortByLe (fun x y => decide (x ≤ y))
    (((windowCalls input s e).map (fun r => monthOf r.call_datetime)).dedup)

/-- `COUNT(*)` of one month's calls. -/
def month_calls_at (monthOf : Nat → Nat) (input : List CallRecord) (s e m : Nat) : Nat :=
  ((windowCalls input s e).filter (fun r => decide (monthOf r.call_datetime = m))).length

/-- `SUM(CASE WHEN priority <= 2 THEN 1 ELSE 0 END)` of one month. -/
def month_severe_at (monthOf : Nat → Nat) (input : List CallRecord) (s e m : Nat) : Nat :=
  ((windowCalls input s e).filter
    (fun r => decide (monthOf r.call_datetime = m ∧ r.priority ≤ 2))).length

/-- The pandas part of `load_monthly_data` over the ascending month keys,
threading `LAG(calls)` (`prev`) and the running window sum (`run`):
`pct_change = ((calls - prev_month_calls) / prev_month_calls * 100).fillna(0)`,
where only the `LAG` `NULL` of the first row produces the `NaN` filled to 0. -/
def monthlyScan (calls severe : Nat → Nat) : Option Nat → Nat → List Nat → List MonthlyRow
  | _, _, [] => []
  | prev, run, m :: rest =>
    { month := m
      calls := calls m
      severe_calls := severe m
      running_total := run + calls m
      prev_month_calls := prev
      pct_change :=
        match prev with
        | none => 0
        | some p => ((calls m : ℚ) - (p : ℚ)) / (p : ℚ) * 100 } ::
      monthlyScan calls severe (some (calls m)) (run + calls m) rest

/-- `load_monthly_data`: per-month counts with running total, `LAG` and
month-over-month percentage change. -/
def load_monthly_data (monthOf : Nat → Nat) (input : List CallRecord) (s e : Nat) :
    List MonthlyRow :=
  monthlyScan (month_calls_at monthOf input s e) (month_severe_at monthOf input s e)
    none 0 (monthKeys monthOf input s e)

/-! ### Shared lemmas about the pipeline shape `take k ∘ sort ∘ map ∘ filter` -/

theorem mem_take_sort_map_filter {α β : Type} {le : β → β → Bool} {f : α → β}
    {p : α → Bool} {keys : List α} {k : Nat} {row : β}
    (h : row ∈ (sortByLe le ((keys.filter p).map f)).take k) :
    ∃ a, a ∈ keys ∧ p a = true ∧ row = f a := by
  have h1 : row ∈ sortByLe le ((keys.filter p).map f) := List.take_subset k _ h
  have h2 : row ∈ (keys.filter p).map f := mem_sortByLe.mp h1
  obtain ⟨a, ha, rfl⟩ := List.mem_map.mp h2
  have hf := List.mem_filter.mp ha
  exact ⟨a, hf.1, hf.2, rfl⟩

theorem mem_take_sort_map_of_length_le {α β : Type} (le : β → β → Bool) (f : α → β)
    {l : List α} {k : Nat} (hlen : l.length ≤ k) {a : α} (ha : a ∈ l) :
    f a ∈ (sortByLe le (l.map f)).take k := by
  have hl : (sortByLe le (l.map f)).length ≤ k := by
    rw [length_sortByLe, List.length_map]; exact hlen
  rw [List.take_of_length_le hl]
  exact mem_sortByLe.mpr (List.mem_map.mpr ⟨a, ha, rfl⟩)

theorem callsAt_subset {input : List CallRecord} {s e : Nat} {a : String}
    {r : CallRecord} (h : r ∈ callsAt input s e a) : r ∈ input := by
  have h1 := (List.mem_filter.mp h).1
  have h2 := (List.mem_filter.mp h1).1
  exact (List.mem_filter.mp h2).1

/-! ### Facts about the risk pipeline -/

theorem mem_load_risk_data {input : List CallRecord} {s e today : Nat} {row : RiskRow}
    (h : row ∈ load_risk_data input s e today) :
    ∃ a, a ∈ addrKeys input s e ∧ 10 ≤ total_calls_at input s e a ∧
      row = riskRowAt input s e today a := by
  obtain ⟨a, ha, hp, rfl⟩ := mem_take_sort_map_filter h
  exact ⟨a, ha, of_decide_eq_true hp, rfl⟩

theorem length_le_sum_int : ∀ l : List Int, (∀ x ∈ l, 1 ≤ x) → (l.length : Int) ≤ l.sum := by
  intro l
  induction l with
  | nil => simp
  | cons x xs ih =>
    intro h
    have hx : 1 ≤ x := h x (List.mem_cons_self x xs)
    have hxs : (xs.length : Int) ≤ xs.sum := ih (fun y hy => h y (List.mem_cons_of_mem x hy))
    simp only [List.length_cons, List.sum_cons]
    push_cast
    linarith

theorem avg_priority_ge_one {input : List CallRecord} {s e : Nat} {a : String}
    (hp : ∀ r ∈ input, 1 ≤ r.priority) (ht : 0 < total_calls_at input s e a) :
    1 ≤ avg_priority_at input s e a := by
  unfold avg_priority_at
  set l := (callsAt input s e a).map (fun r => r.priority) with hl
  have hall : ∀ x ∈ l, 1 ≤ x := by
    intro x hx
    obtain ⟨r, hr, rfl⟩ := List.mem_map.mp hx
    exact hp r (callsAt_subset hr)
  have hsum : (l.length : Int) ≤ l.sum := length_le_sum_int l hall
  have hlen : l.length = total_calls_at input s e a := by
    rw [hl, List.length_map]; rfl
  rw [hlen] at hsum
  rw [one_le_div (by exact_mod_cast ht)]
  exact_mod_cast hsum

theorem le_mysqlRound2 {c : Int} {q : ℚ} (hc : 0 ≤ c) (h : (c : ℚ) ≤ q) :
    (c : ℚ) ≤ mysqlRound2 q := by
  have hq : 0 ≤ q * 100 := by
    have : (0 : ℚ) ≤ (c : ℚ) := by exact_mod_cast hc
    nlinarith
  unfold mysqlRound2 mysqlRound
  rw [if_pos hq]
  have hfl : (100 * c : Int) ≤ ⌊q * 100 + 1/2⌋ := by
    rw [Int.le_floor]
    push_cast
    linarith
  have : ((100 * c : Int) : ℚ) ≤ (⌊q * 100 + 1/2⌋ : ℚ) := by exact_mod_cast hfl
  push_cast at this
  linarith

theorem riskCategory_isSome_of_pos {q : ℚ} (h : 0 < q) : (riskCategory q).isSome := by
  unfold riskCategory
  split_ifs with h1 h2 h3 h4
  · rfl
  · rfl
  · rfl
  · rfl
  · exfalso
    push_neg at h1 h2 h3 h4
    linarith [h1 h, h2 (h1 h), h3 (h2 (h1 h))]

/-! ### Concrete inputs used by witnesses and counterexamples -/

/-- Convenience constructor for concrete test records. -/
def mkCall (t : Nat) (d : Option Nat) (ty a : Option String) (p : Int) : CallRecord :=
  { call_datetime := t, dispatch_datetime := d, call_type := ty, address := a,
    priority := p }

/-- Ten priority-3 calls at address "A" and one at "B". -/
def riskInput : List CallRecord :=
  (List.range 10).map (fun i => mkCall i none none (some "A") 3) ++
    [mkCall 20 none none (some "B") 1]

/-- Three calls at one address whose consecutive gaps are 1470 minutes
(24 hours 30 minutes). -/
def chainGapInput : List CallRecord :=
  [mkCall 0 none none (some "A") 3, mkCall 1470 none none (some "A") 2,
   mkCall 2940 none none (some "A") 3]

/-- Sixteen addresses ("0".."15"), each with three calls 60 minutes apart. -/
def chainManyInput : List CallRecord :=
  (List.range 16).flatMap (fun i =>
    (List.range 3).map (fun j =>
      mkCall (200 * i + 60 * j) none none (some (Nat.repr i)) 3))

/-- Two calls at one address exactly 48 hours (2880 minutes) apart. -/
def pairInput : List CallRecord :=
  [mkCall 0 none none (some "A") 3, mkCall 2880 none none (some "A") 2]

/-- A single call on a Monday at 00:00. -/
def heatInput : List CallRecord := [mkCall 0 none none (some "X") 3]

/-- Fifty-one distinct addresses ("0".."50") with one call each. -/
def paretoInput51 : List CallRecord :=
  (List.range 51).map (fun i => mkCall i none none (some (Nat.repr i)) 3)

/-- Two calls at "A" and one at "B". -/
def paretoInputSmall : List CallRecord :=
  [mkCall 0 none none (some "A") 3, mkCall 1 none none (some "A") 3,
   mkCall 2 none none (some "B") 3]

/-- Eleven call types ("0".."10") with 50 qualifying calls each
(dispatch at the call time, response time 0). -/
def respInput11 : List CallRecord :=
  (List.range 550).map (fun i => mkCall i (some i) (some (Nat.repr (i / 50))) none 3)

/-- Call type "A" with 50 qualifying calls and call type "B" with 49. -/
def respInputAB : List CallRecord :=
  (List.range 50).map (fun i => mkCall i (some (i + 5)) (some "A") none 3) ++
    (List.range 49).map (fun i => mkCall (1000 + i) (some (1000 + i + 3)) (some "B") none 3)

/-- Two 30-day months of calls: 2 calls in month 0, 3 calls in month 1. -/
def monthlyInput : List CallRecord :=
  [mkCall 0 none none none 3, mkCall 1 none none none 3,
   mkCall 43200 none none none 1, mkCall 43201 none none none 3,
   mkCall 43202 none none none 3]

/-- The 30-day calendar used with `monthlyInput`. -/
def month30 (t : Nat) : Nat := t / 43200

/-! ### C1 -/

/-- C1: every row of `load_risk_data` reports an address with at least 10
in-window calls, and its `risk_score` equals
`ROUND(total_calls * 0.3 + severe_calls * 2.0 + avg_priority * 10
+ (15 if days_since_last < 7 else 0), 2)` computed over that address's
in-window calls (severe = priority ≤ 2, avg_priority = mean priority,
days_since_last = days from the 'now' day to the latest call); an address with
fewer than 10 in-window calls produces no output row. -/
theorem risk_score_formula (input : List CallRecord) (s e today : Nat) :
    (∀ row ∈ load_risk_data input s e today,
      10 ≤ total_calls_at input s e row.address ∧
      row.total_calls = total_calls_at input s e row.address ∧
      row.severe_calls = severe_calls_at input s e row.address ∧
      row.days_since_last = days_since_last_at input s e today row.address ∧
      row.risk_score = mysqlRound2
        ((total_calls_at input s e row.address : ℚ) * (3/10) +
         (severe_calls_at input s e row.address : ℚ) * 2 +
         avg_priority_at input s e row.address * 10 +
         (if days_since_last_at input s e today row.address < 7 then 15 else 0))) ∧
    (∀ a : String, total_calls_at input s e a < 10 →
      a ∉ (load_risk_data input s e today).map (fun row => row.address)) := by
  constructor
  · intro row hrow
    obtain ⟨a, _, h10, rfl⟩ := mem_load_risk_data hrow
    exact ⟨h10, rfl, rfl, rfl, rfl⟩
  · intro a hlt hmem
    obtain ⟨row, hrow, haddr⟩ := List.mem_map.mp hmem
    obtain ⟨b, _, h10, rfl⟩ := mem_load_risk_data hrow
    have : b = a := haddr
    rw [this] at h10
    omega

/-- Witness for C1 at `riskInput`: the formula value of the produced row for
"A", and the absence of "B" (1 call < 10). -/
theorem risk_score_formula_witness :
    (riskRowAt riskInput 0 1000 100 "A").risk_score = mysqlRound2
      ((total_calls_at riskInput 0 1000 "A" : ℚ) * (3/10) +
       (severe_calls_at riskInput 0 1000 "A" : ℚ) * 2 +
       avg_priority_at riskInput 0 1000 "A" * 10 +
       (if days_since_last_at riskInput 0 1000 100 "A" < 7 then 15 else 0)) ∧
    "B" ∉ (load_risk_data riskInput 0 1000 100).map (fun row => row.address) := by
  constructor
  · exact ((risk_score_formula riskInput 0 1000 100).1 (riskRowAt riskInput 0 1000 100 "A")
      (by with_unfolding_all decide)).2.2.2.2
  · exact (risk_score_formula riskInput 0 1000 100).2 "B" (by with_unfolding_all decide)

/-! ### C9 -/

/-- C9: `load_risk_data` is a pure function of the call records and the fixed
'now' day: two runs over identical inputs with the same 'now' produce identical
rows (and in particular identical risk scores per address). -/
theorem risk_scorer_deterministic (input1 input2 : List CallRecord)
    (s e today1 today2 : Nat) (hin : input1 = input2) (hnow : today1 = today2) :
    load_risk_data input1 s e today1 = load_risk_data input2 s e today2 := by
  subst hin
  subst hnow
  rfl

/-- Witness for C9 at `riskInput`. -/
theorem risk_scorer_deterministic_witness :
    load_risk_data riskInput 0 1000 100 = load_risk_data riskInput 0 1000 100 :=
  risk_scorer_deterministic riskInput riskInput 0 1000 100 100 rfl rfl

/-! ### C10 -/

/-- C10: with priorities in [1, 5], every row `load_risk_data` returns has
`risk_score ≥ 13 > 0` (at least `10 * 0.3 + 1 * 10`), so the left-open lower
edge of the bottom `(0, 70]` bucket is never reached and `pd.cut` assigns every
output row a defined `risk_category`. -/
theorem risk_rows_categorized (input : List CallRecord) (s e today : Nat)
    (hp : ∀ r ∈ input, 1 ≤ r.priority ∧ r.priority ≤ 5) :
    ∀ row ∈ load_risk_data input s e today,
      13 ≤ row.risk_score ∧ row.risk_category.isSome := by
  intro row hrow
  obtain ⟨a, _, h10, rfl⟩ := mem_load_risk_data hrow
  have havg : 1 ≤ avg_priority_at input s e a :=
    avg_priority_ge_one (fun r hr => (hp r hr).1) (lt_of_lt_of_le (by norm_num) h10)
  have hraw : (13 : ℚ) ≤ raw_risk_score_at input s e today a := by
    unfold raw_risk_score_at
    have h1 : (10 : ℚ) ≤ (total_calls_at input s e a : ℚ) := by exact_mod_cast h10
    have h2 : (0 : ℚ) ≤ (severe_calls_at input s e a : ℚ) := by positivity
    have h3 : (0 : ℚ) ≤
        (if days_since_last_at input s e today a < 7 then (15 : ℚ) else 0) := by
      split_ifs <;> norm_num
    nlinarith [havg]
  have hscore : (13 : ℚ) ≤ risk_score_at input s e today a := by
    have h13 := le_mysqlRound2 (c := 13) (by norm_num) (q := raw_risk_score_at input s e today a)
      (by exact_mod_cast hraw)
    unfold risk_score_at
    exact_mod_cast h13
  refine ⟨hscore, ?_⟩
  exact riskCategory_isSome_of_pos (lt_of_lt_of_le (by norm_num) hscore)

/-- Witness for C10 at `riskInput` (all priorities in [1, 5]). -/
theorem risk_rows_categorized_witness :
    13 ≤ (riskRowAt riskInput 0 1000 100 "A").risk_score ∧
    (riskRowAt riskInput 0 1000 100 "A").risk_category.isSome :=
  risk_rows_categorized riskInput 0 1000 100 (by decide)
    (riskRowAt riskInput 0 1000 100 "A") (by with_unfolding_all decide)

/-! ### C3 -/

/-- C3 counterexample: `risk_score = 0` satisfies `risk_score ≥ 0` but
`pd.cut`'s bottom bin `(0, 70]` is left-open at 0, so 0 is assigned no band:
the categorization is not exhaustive over all `risk_score ≥ 0`. -/
theorem risk_bands_counterexample :
    (0 : ℚ) ≤ 0 ∧ riskCategory 0 = none :=
  ⟨le_refl 0, by with_unfolding_all decide⟩

/-- C3 (amended): for every `risk_score > 0` (rather than ≥ 0) the four ordered
bands `(0,70] / (70,80] / (80,90] / (90,∞)`, each upper edge inclusive, are
exhaustive and non-overlapping: exactly one band is assigned. -/
theorem risk_bands_partition (q : ℚ) (h : 0 < q) :
    (∃! b, riskCategory q = some b) ∧
    (q ≤ 70 → riskCategory q = some RiskBand.lower) ∧
    (70 < q ∧ q ≤ 80 → riskCategory q = some RiskBand.moderate) ∧
    (80 < q ∧ q ≤ 90 → riskCategory q = some RiskBand.high) ∧
    (90 < q → riskCategory q = some RiskBand.critical) := by
  refine ⟨?_, ?_, ?_, ?_, ?_⟩
  · obtain ⟨b, hb⟩ := Option.isSome_iff_exists.mp (riskCategory_isSome_of_pos h)
    exact ⟨b, hb, fun y hy => Option.some.inj (hy.symm.trans hb)⟩
  · intro h70
    unfold riskCategory
    rw [if_pos ⟨h, h70⟩]
  · rintro ⟨h70, h80⟩
    unfold riskCategory
    rw [if_neg (by rintro ⟨-, hx⟩; linarith), if_pos ⟨h70, h80⟩]
  · rintro ⟨h80, h90⟩
    unfold riskCategory
    rw [if_neg (by rintro ⟨-, hx⟩; linarith), if_neg (by rintro ⟨-, hx⟩; linarith),
      if_pos ⟨h80, h90⟩]
  · intro h90
    unfold riskCategory
    rw [if_neg (by rintro ⟨-, hx⟩; linarith), if_neg (by rintro ⟨-, hx⟩; linarith),
      if_neg (by rintro ⟨-, hx⟩; linarith), if_pos h90]

/-- Witness for the amended C3 at `q = 75`. -/
theorem risk_bands_partition_witness :
    riskCategory 75 = some RiskBand.moderate :=
  (risk_bands_partition 75 (by norm_num)).2.2.1 ⟨by norm_num, by norm_num⟩

/-! ### Facts about the incident-chain pipeline -/

theorem mem_load_incident_chain_data {input : List CallRecord} {s e : Nat} {row : ChainRow}
    (h : row ∈ load_incident_chain_data input s e) :
    ∃ a, a ∈ addrKeys input s e ∧ 3 ≤ incidents_24h_at input s e a ∧
      row = chainRowAt input s e a := by
  obtain ⟨a, ha, hp, rfl⟩ := mem_take_sort_map_filter h
  exact ⟨a, ha, of_decide_eq_true hp, rfl⟩

/-- For natural gaps, `TIMESTAMPDIFF(HOUR, p, t) <= 24` says exactly that the
minute gap is at most 1499 (24 hours 59 minutes). -/
theorem gapLinked_eq_le_1499 (p t : Nat) : gapLinked p t = decide (t - p ≤ 1499) := by
  unfold gapLinked
  rw [decide_eq_decide]
  omega

/-- The chain predicate written directly on minute gaps: a call is flagged when
its gap to the previous or next call is at most `m` minutes. -/
def linkedFlagsW (m : Nat) : Option Nat → List Nat → List Bool
  | _, [] => []
  | prev, t :: rest =>
    ((match prev with
      | some p => decide (t - p ≤ m)
      | none => false) ||
     (match rest.head? with
      | some nx => decide (nx - t ≤ m)
      | none => false)) :: linkedFlagsW m (some t) rest

theorem linkedFlags_eq_within :
    ∀ (l : List Nat) (prev : Option Nat), linkedFlags prev l = linkedFlagsW 1499 prev l := by
  intro l
  induction l with
  | nil => intro prev; rfl
  | cons t rest ih =>
    intro prev
    unfold linkedFlags linkedFlagsW
    rw [ih]
    congr 2
    · cases prev with
      | none => rfl
      | some p => exact gapLinked_eq_le_1499 p t
    · cases rest with
      | nil => rfl
      | cons t2 rest2 => exact gapLinked_eq_le_1499 t t2

/-- The number of the address's in-window calls within `m` minutes of their
previous or next call at that address. -/
def incidentsWithin (input : List CallRecord) (s e : Nat) (a : String) (m : Nat) : Nat :=
  (linkedFlagsW m none (timesAt input s e a)).count true

theorem incidents_eq_within (input : List CallRecord) (s e : Nat) (a : String) :
    incidents_24h_at input s e a = incidentsWithin input s e a 1499 := by
  unfold incidents_24h_at incidentsWithin
  rw [linkedFlags_eq_within]

/-! ### C2 -/

/-- C2 counterexample, two parts.  (1) Three calls at one address with
consecutive gaps of 1470 minutes (24h30m): none is within 24 hours of a
neighbouring call (`incidentsWithin .. 1440 = 0`), yet — because
`TIMESTAMPDIFF(HOUR, ..) <= 24` truncates the gap to 24 complete hours — the
code links all three and the address appears in the output.  (2) Sixteen
addresses, each with 3 calls that genuinely are within 24 hours of their
neighbours: address "15" has `incidents_24h = 3` yet does not appear, because
of `LIMIT 15`.  Both parts contradict the claim's 'counted exactly when within
24 hours' / 'appears exactly when at least 3'. -/
theorem chain_detector_counterexample :
    (incidentsWithin chainGapInput 0 10000 "A" 1440 = 0 ∧
      (load_incident_chain_data chainGapInput 0 10000).map (fun row => row.address) =
        ["A"]) ∧
    (incidentsWithin chainManyInput 0 10000 "15" 1440 = 3 ∧
      3 ≤ incidents_24h_at chainManyInput 0 10000 "15" ∧
      "15" ∉ (load_incident_chain_data chainManyInput 0 10000).map
        (fun row => row.address)) := by
  with_unfolding_all decide

/-- C2 (amended): a call is counted as chain-linked exactly when its gap to the
immediately preceding or following call at the same address is at most 1499
minutes — i.e. at most 24 complete hours, `TIMESTAMPDIFF(HOUR,..) <= 24`, not
'within 24 hours' — each output row has `incidents_24h >= 3` of such calls and
`chain_length = round(incidents_24h / 2.0)`, and an address appears in the
output exactly when its chain-linked count is at least 3, provided at most 15
addresses qualify (the output is truncated to the top 15 by `incidents_24h`). -/
theorem chain_detector_corrected (input : List CallRecord) (s e : Nat) :
    (∀ row ∈ load_incident_chain_data input s e,
      3 ≤ row.incidents_24h ∧
      row.incidents_24h = incidentsWithin input s e row.address 1499 ∧
      row.chain_length = mysqlRound ((row.incidents_24h : ℚ) / 2)) ∧
    (((addrKeys input s e).filter
        (fun a => decide (3 ≤ incidents_24h_at input s e a))).length ≤ 15 →
      ∀ a, a ∈ (load_incident_chain_data input s e).map (fun row => row.address) ↔
        (a ∈ addrKeys input s e ∧ 3 ≤ incidents_24h_at input s e a)) := by
  constructor
  · intro row hrow
    obtain ⟨a, _, h3, rfl⟩ := mem_load_incident_chain_data hrow
    exact ⟨h3, incidents_eq_within input s e a, rfl⟩
  · intro hlen a
    constructor
    · intro hmem
      obtain ⟨row, hrow, haddr⟩ := List.mem_map.mp hmem
      obtain ⟨b, hb, h3, rfl⟩ := mem_load_incident_chain_data hrow
      have hba : b = a := haddr
      subst hba
      exact ⟨hb, h3⟩
    · rintro ⟨ha, h3⟩
      have hmem : a ∈ (addrKeys input s e).filter
          (fun a => decide (3 ≤ incidents_24h_at input s e a)) :=
        List.mem_filter.mpr ⟨ha, decide_eq_true h3⟩
      have := mem_take_sort_map_of_length_le
        (fun x y => decide (y.incidents_24h ≤ x.incidents_24h))
        (chainRowAt input s e) hlen hmem
      exact List.mem_map.mpr ⟨chainRowAt input s e a, this, rfl⟩

/-- Witness for the amended C2 at `chainGapInput`. -/
theorem chain_detector_corrected_witness :
    ((chainRowAt chainGapInput 0 10000 "A").chain_length =
      mysqlRound (((chainRowAt chainGapInput 0 10000 "A").incidents_24h : ℚ) / 2)) ∧
    ("A" ∈ (load_incident_chain_data chainGapInput 0 10000).map (fun row => row.address) ↔
      ("A" ∈ addrKeys chainGapInput 0 10000 ∧
        3 ≤ incidents_24h_at chainGapInput 0 10000 "A")) := by
  constructor
  · exact ((chain_detector_corrected chainGapInput 0 10000).1
      (chainRowAt chainGapInput 0 10000 "A") (by with_unfolding_all decide)).2.2
  · exact (chain_detector_corrected chainGapInput 0 10000).2 (by decide) "A"

/-! ### C8 -/

/-- C8: an address whose in-window calls are exactly two, 48 hours (2880
minutes) apart, never appears in the incident-chain output: neither call is
within (a truncated) 24 hours of its only neighbour, so `incidents_24h = 0`,
below the `HAVING incidents_24h >= 3` threshold. -/
theorem isolated_pair_excluded (input : List CallRecord) (s e : Nat) (a : String)
    (t : Nat) (h : timesAt input s e a = [t, t + 2880]) :
    a ∉ (load_incident_chain_data input s e).map (fun row => row.address) := by
  intro hmem
  obtain ⟨row, hrow, haddr⟩ := List.mem_map.mp hmem
  obtain ⟨b, _, h3, rfl⟩ := mem_load_incident_chain_data hrow
  have hba : b = a := haddr
  rw [hba] at h3
  have hg : gapLinked t (t + 2880) = false := by
    unfold gapLinked
    simp only [decide_eq_false_iff_not]
    omega
  have h0 : incidents_24h_at input s e a = 0 := by
    unfold incidents_24h_at
    rw [h]
    simp [linkedFlags, hg]
  omega

/-- Witness for C8 at `pairInput`. -/
theorem isolated_pair_excluded_witness :
    "A" ∉ (load_incident_chain_data pairInput 0 5000).map (fun row => row.address) :=
  isolated_pair_excluded pairInput 0 5000 "A" 0 (by decide)

/-! ### Facts about the heatmap pipeline -/

theorem dayName_inj {d d2 : Nat} (hd : d < 7) (hd2 : d2 < 7)
    (h : dayName d = dayName d2) : d = d2 := by
  interval_cases d <;> interval_cases d2 <;> revert h <;> decide

theorem heatKeys_day_lt {input : List CallRecord} {s e : Nat} {k : Nat × Nat}
    (hk : k ∈ heatKeys input s e) : k.2 < 7 := by
  obtain ⟨r, _, heq⟩ := List.mem_map.mp (List.mem_dedup.mp hk)
  have : k.2 = dayIdxOf r.call_datetime := by rw [← heq]
  rw [this]
  exact Nat.mod_lt _ (by norm_num)

theorem mem_heatKeys_iff {input : List CallRecord} {s e h d : Nat} :
    (h, d) ∈ heatKeys input s e ↔ 0 < cellCount input s e h d := by
  unfold heatKeys cellCount
  rw [List.mem_dedup, List.length_pos_iff_exists_mem]
  constructor
  · intro hm
    obtain ⟨r, hr, heq⟩ := List.mem_map.mp hm
    rw [Prod.mk.injEq] at heq
    exact ⟨r, List.mem_filter.mpr ⟨hr, decide_eq_true ⟨heq.1, heq.2⟩⟩⟩
  · rintro ⟨r, hr⟩
    have hf := List.mem_filter.mp hr
    obtain ⟨h1, h2⟩ := of_decide_eq_true hf.2
    exact List.mem_map.mpr ⟨r, hf.1, by rw [h1, h2]⟩

theorem mem_load_heatmap_data {input : List CallRecord} {s e : Nat} {row : HeatRow} :
    row ∈ load_heatmap_data input s e ↔
      ∃ k ∈ heatKeys input s e,
        ({ hour := k.1, day := dayName k.2, calls := cellCount input s e k.1 k.2 }
          : HeatRow) = row := by
  unfold load_heatmap_data
  rw [List.mem_map]
  constructor
  · rintro ⟨k, hk, heq⟩
    exact ⟨k, mem_sortByLe.mp hk, heq⟩
  · rintro ⟨k, hk, heq⟩
    exact ⟨k, mem_sortByLe.mpr hk, heq⟩

/-! ### C4 -/

/-- C4 counterexample: over a full-week range containing a single call (Monday
00:00), the heatmap output has exactly one row; in particular the zero-call
cell (3, Tuesday) is absent rather than emitted with value 0 — `GROUP BY`
produces no empty groups and nothing densifies the grid. -/
theorem heatmap_dense_counterexample :
    load_heatmap_data heatInput 0 10079 =
      [{ hour := 0, day := "Monday", calls := 1 }] ∧
    ({ hour := 3, day := "Tuesday", calls := 0 } : HeatRow) ∉
      load_heatmap_data heatInput 0 10079 := by
  decide

/-- C4 (amended): the heatmap output is sparse, not a dense 24×7 grid: a cell
(hour, day) appears exactly when at least one in-window call falls on it, and
when it appears its value is the positive call count (never 0). -/
theorem heatmap_sparse_grid (input : List CallRecord) (s e h d : Nat) (hd : d < 7) :
    ((∃ c, ({ hour := h, day := dayName d, calls := c } : HeatRow) ∈
        load_heatmap_data input s e) ↔ 0 < cellCount input s e h d) ∧
    (∀ c, ({ hour := h, day := dayName d, calls := c } : HeatRow) ∈
        load_heatmap_data input s e → c = cellCount input s e h d) := by
  have key : ∀ c, ({ hour := h, day := dayName d, calls := c } : HeatRow) ∈
      load_heatmap_data input s e →
      (h, d) ∈ heatKeys input s e ∧ c = cellCount input s e h d := by
    intro c hc
    obtain ⟨k, hk, heq⟩ := mem_load_heatmap_data.mp hc
    rw [HeatRow.mk.injEq] at heq
    obtain ⟨e1, e2, e3⟩ := heq
    have hday : k.2 = d := dayName_inj (heatKeys_day_lt hk) hd e2
    have hkey : k = (h, d) := Prod.ext e1 hday
    rw [hkey] at hk
    exact ⟨hk, by rw [← e3, e1, hday]⟩
  constructor
  · constructor
    · rintro ⟨c, hc⟩
      exact mem_heatKeys_iff.mp (key c hc).1
    · intro hpos
      refine ⟨cellCount input s e h d, ?_⟩
      exact mem_load_heatmap_data.mpr ⟨(h, d), mem_heatKeys_iff.mpr hpos, rfl⟩
  · intro c hc
    exact (key c hc).2

/-- Witness for the amended C4 at `heatInput`, cell (0, Monday). -/
theorem heatmap_sparse_grid_witness :
    (∃ c, ({ hour := 0, day := dayName 0, calls := c } : HeatRow) ∈
      load_heatmap_data heatInput 0 10079) ∧
    1 = cellCount heatInput 0 10079 0 0 := by
  constructor
  · exact (heatmap_sparse_grid heatInput 0 10079 0 0 (by norm_num)).1.mpr (by decide)
  · exact ((heatmap_sparse_grid heatInput 0 10079 0 0 (by norm_num)).2 1 (by decide)).symm

/-! ### C6 -/

theorem monthlyScan_pct (calls severe : Nat → Nat) :
    ∀ (l : List Nat) (prev : Option Nat) (run : Nat),
      (∀ m ∈ l, 1 ≤ calls m) →
      (∀ p, prev = some p → 1 ≤ p) →
      ∀ row ∈ monthlyScan calls severe prev run l,
        (row.prev_month_calls = none → row.pct_change = 0) ∧
        (∀ p, row.prev_month_calls = some p →
          1 ≤ p ∧ row.pct_change = ((row.calls : ℚ) - (p : ℚ)) / (p : ℚ) * 100) := by
  intro l
  induction l with
  | nil =>
    intro prev run _ _ row hrow
    simp [monthlyScan] at hrow
  | cons m rest ih =>
    intro prev run hcalls hprev row hrow
    have htail : ∀ p : Nat, some (calls m) = some p → 1 ≤ p := by
      intro p hp
      rw [← Option.some.inj hp]
      exact hcalls m (List.mem_cons_self m rest)
    have hcallsTail : ∀ x ∈ rest, 1 ≤ calls x :=
      fun x hx => hcalls x (List.mem_cons_of_mem m hx)
    cases prev with
    | none =>
      rcases List.mem_cons.mp hrow with heq | hmem
      · subst heq
        refine ⟨fun _ => rfl, ?_⟩
        intro p hp
        exact absurd hp (by simp)
      · exact ih (some (calls m)) (run + calls m) hcallsTail htail row hmem
    | some q =>
      rcases List.mem_cons.mp hrow with heq | hmem
      · subst heq
        have hq : 1 ≤ q := hprev q rfl
        refine ⟨fun hnone => by simp at hnone, ?_⟩
        intro p hp
        have hqp : q = p := by simpa using hp
        subst hqp
        exact ⟨hq, rfl⟩
      · exact ih (some (calls m)) (run + calls m) hcallsTail htail row hmem

/-- C6: in every `load_monthly_data` output row, `pct_change` is 0 when the row
has no previous month (`LAG` is `NULL`, filled by `fillna(0)`), and otherwise
equals `(calls - prev_month_calls) / prev_month_calls * 100`; the
previous-count-zero case of the claim is vacuous, since every month present in
the grouped output has at least one call (`prev_month_calls ≥ 1` whenever
defined), which the theorem also records. -/
theorem monthly_pct_change (monthOf : Nat → Nat) (input : List CallRecord) (s e : Nat) :
    ∀ row ∈ load_monthly_data monthOf input s e,
      (row.prev_month_calls = none → row.pct_change = 0) ∧
      (∀ p, row.prev_month_calls = some p →
        1 ≤ p ∧ row.pct_change = ((row.calls : ℚ) - (p : ℚ)) / (p : ℚ) * 100) := by
  apply monthlyScan_pct
  · intro m hm
    obtain ⟨r, hr, hrm⟩ := List.mem_map.mp (List.mem_dedup.mp (mem_sortByLe.mp hm))
    exact List.length_pos_iff_exists_mem.mpr
      ⟨r, List.mem_filter.mpr ⟨hr, decide_eq_true hrm⟩⟩
  · intro p hp
    exact absurd hp (by simp)

/-- The second output row of `load_monthly_data month30 monthlyInput 0 100000`. -/
def monthRow2 : MonthlyRow :=
  { month := 1, calls := 3, severe_calls := 1, running_total := 5,
    prev_month_calls := some 2, pct_change := 50 }

/-- Witness for C6 at `monthlyInput`: the month-1 row (previous month had 2
calls, this month 3, `pct_change` = 50). -/
theorem monthly_pct_change_witness :
    1 ≤ 2 ∧ monthRow2.pct_change = ((monthRow2.calls : ℚ) - (2 : ℚ)) / (2 : ℚ) * 100 :=
  (monthly_pct_change month30 monthlyInput 0 100000 monthRow2
    (by with_unfolding_all decide)).2 2 rfl

/-! ### C7 -/

theorem mem_load_response_time_data {input : List CallRecord} {s e : Nat}
    {row : ResponseRow} (h : row ∈ load_response_time_data input s e) :
    ∃ t, t ∈ responseTypes input s e ∧ 50 ≤ response_count_at input s e t ∧
      row = responseRowAt input s e t := by
  obtain ⟨t, ht, hp, rfl⟩ := mem_take_sort_map_filter h
  exact ⟨t, ht, of_decide_eq_true hp, rfl⟩

set_option maxRecDepth 100000 in
/-- C7 counterexample: with eleven call types of exactly 50 qualifying calls
each, type "10" has 50 qualifying calls and is nevertheless not reported —
`LIMIT 10` truncates the output — so 'reports a call_type exactly when it has
at least 50 qualifying calls' fails. -/
theorem response_threshold_counterexample :
    response_count_at respInput11 0 100000 (some "10") = 50 ∧
    some "10" ∉ (load_response_time_data respInput11 0 100000).map
      (fun row => row.call_type) := by
  with_unfolding_all decide

/-- C7 (amended): every reported call type has at least 50 qualifying calls
(non-null dispatch, response time within [0, 120] minutes) — in particular a
type with exactly 49 qualifying calls is always excluded — and a type with at
least 50 qualifying calls is reported provided at most 10 types qualify (the
output is truncated to the top 10 by p90). -/
theorem response_threshold (input : List CallRecord) (s e : Nat) :
    (∀ row ∈ load_response_time_data input s e,
      50 ≤ response_count_at input s e row.call_type) ∧
    (∀ t, response_count_at input s e t = 49 →
      t ∉ (load_response_time_data input s e).map (fun row => row.call_type)) ∧
    (((responseTypes input s e).filter
        (fun t => decide (50 ≤ response_count_at input s e t))).length ≤ 10 →
      ∀ t, t ∈ (load_response_time_data input s e).map (fun row => row.call_type) ↔
        (t ∈ responseTypes input s e ∧ 50 ≤ response_count_at input s e t)) := by
  have sound : ∀ t, t ∈ (load_response_time_data input s e).map (fun row => row.call_type) →
      t ∈ responseTypes input s e ∧ 50 ≤ response_count_at input s e t := by
    intro t hmem
    obtain ⟨row, hrow, hrt⟩ := List.mem_map.mp hmem
    obtain ⟨u, hu, h50, rfl⟩ := mem_load_response_time_data hrow
    have hut : u = t := hrt
    subst hut
    exact ⟨hu, h50⟩
  refine ⟨?_, ?_, ?_⟩
  · intro row hrow
    obtain ⟨u, _, h50, rfl⟩ := mem_load_response_time_data hrow
    exact h50
  · intro t h49 hmem
    have := (sound t hmem).2
    omega
  · intro hlen t
    constructor
    · exact sound t
    · rintro ⟨ht, h50⟩
      have hmem : t ∈ (responseTypes input s e).filter
          (fun t => decide (50 ≤ response_count_at input s e t)) :=
        List.mem_filter.mpr ⟨ht, decide_eq_true h50⟩
      have := mem_take_sort_map_of_length_le
        (fun x y => decide (y.p90 ≤ x.p90)) (responseRowAt input s e) hlen hmem
      exact List.mem_map.mpr ⟨responseRowAt input s e t, this, rfl⟩

set_option maxRecDepth 100000 in
/-- Witness for the amended C7 at `respInputAB`: type "B" (49 qualifying) is
excluded, type "A" (50 qualifying, only 1 qualifying type besides it) is
reported. -/
theorem response_threshold_witness :
    (some "B" ∉ (load_response_time_data respInputAB 0 100000).map
      (fun row => row.call_type)) ∧
    (some "A" ∈ (load_response_time_data respInputAB 0 100000).map
        (fun row => row.call_type) ↔
      (some "A" ∈ responseTypes respInputAB 0 100000 ∧
        50 ≤ response_count_at respInputAB 0 100000 (some "A"))) := by
  constructor
  · exact (response_threshold respInputAB 0 100000).2.1 (some "B")
      (by with_unfolding_all decide)
  · exact (response_threshold respInputAB 0 100000).2.2
      (by with_unfolding_all decide) (some "A")

/-! ### Facts about the pareto pipeline -/

theorem qdiv_mul_mono {a b S : ℚ} (h : a ≤ b) (hS : 0 ≤ S) :
    a / S * 100 ≤ b / S * 100 := by
  rcases eq_or_lt_of_le hS with h0 | hpos
  · rw [← h0, div_zero, div_zero]
  · have h2 : a / S ≤ b / S := by gcongr
    linarith

theorem paretoScan_pct (S : ℚ) :
    ∀ (l : List (String × Nat)) (rank acc : Nat),
      ∀ row ∈ paretoScan S rank acc l,
        row.cumulative_pct = (row.cumulative_calls : ℚ) / S * 100 := by
  intro l
  induction l with
  | nil =>
    intro rank acc row hrow
    exact absurd hrow (List.not_mem_nil row)
  | cons p rest ih =>
    intro rank acc row hrow
    rcases List.mem_cons.mp hrow with heq | hmem
    · subst heq; rfl
    · exact ih (rank + 1) (acc + p.2) row hmem

theorem paretoScan_cum_ge (S : ℚ) :
    ∀ (l : List (String × Nat)) (rank acc : Nat),
      ∀ row ∈ paretoScan S rank acc l, acc ≤ row.cumulative_calls := by
  intro l
  induction l with
  | nil =>
    intro rank acc row hrow
    exact absurd hrow (List.not_mem_nil row)
  | cons p rest ih =>
    intro rank acc row hrow
    rcases List.mem_cons.mp hrow with heq | hmem
    · subst heq; exact Nat.le_add_right acc p.2
    · exact Nat.le_trans (Nat.le_add_right acc p.2) (ih (rank + 1) (acc + p.2) row hmem)

theorem paretoScan_pairwise (S : ℚ) :
    ∀ (l : List (String × Nat)) (rank acc : Nat),
      List.Pairwise (fun x y => x.cumulative_calls ≤ y.cumulative_calls)
        (paretoScan S rank acc l) := by
  intro l
  induction l with
  | nil => intro rank acc; exact List.Pairwise.nil
  | cons p rest ih =>
    intro rank acc
    refine List.Pairwise.cons ?_ (ih (rank + 1) (acc + p.2))
    intro row hrow
    exact paretoScan_cum_ge S rest (rank + 1) (acc + p.2) row hrow

theorem paretoScan_getLast (S : ℚ) :
    ∀ (l : List (String × Nat)) (rank acc : Nat), l ≠ [] →
      ∃ row, (paretoScan S rank acc l).getLast? = some row ∧
        row.cumulative_calls = acc + (l.map (fun p => p.2)).sum ∧
        row.cumulative_pct = ((acc + (l.map (fun p => p.2)).sum : Nat) : ℚ) / S * 100 := by
  intro l
  induction l with
  | nil => intro rank acc h; exact absurd rfl h
  | cons p rest ih =>
    intro rank acc _
    cases rest with
    | nil =>
      refine ⟨{ address := p.1, calls := p.2, rank := rank,
                cumulative_calls := acc + p.2,
                cumulative_pct := ((acc + p.2 : Nat) : ℚ) / S * 100 },
        rfl, by simp, by simp⟩
    | cons p2 rest2 =>
      obtain ⟨row, hlast, hcum, hpct⟩ := ih (rank + 1) (acc + p.2) (by simp)
      have hnat : acc + p.2 + (List.map (fun p => p.2) (p2 :: rest2)).sum =
          acc + (List.map (fun p => p.2) (p :: p2 :: rest2)).sum := by
        simp only [List.map_cons, List.sum_cons]
        omega
      refine ⟨row, List.getLast?_cons_cons.trans hlast, ?_, ?_⟩
      · rw [hcum, hnat]
      · rw [hpct, hnat]

theorem total_calls_at_pos {input : List CallRecord} {s e : Nat} {a : String}
    (ha : a ∈ addrKeys input s e) : 0 < total_calls_at input s e a := by
  obtain ⟨r, hr, hra⟩ := List.mem_filterMap.mp (List.mem_dedup.mp ha)
  exact List.length_pos_iff_exists_mem.mpr
    ⟨r, List.mem_filter.mpr ⟨hr, decide_eq_true hra⟩⟩

theorem paretoBase_snd_pos {input : List CallRecord} {s e : Nat} {p : String × Nat}
    (hp : p ∈ paretoBase input s e) : 0 < p.2 := by
  have h1 := mem_sortByLe.mp (List.take_subset _ _ hp)
  obtain ⟨a, ha, heq⟩ := List.mem_map.mp h1
  rw [← heq]
  exact total_calls_at_pos ha

theorem length_filter_address_eq_count (a : String) :
    ∀ l : List CallRecord,
      (l.filter (fun r => decide (r.address = some a))).length =
        (l.filterMap (fun r => r.address)).count a := by
  intro l
  induction l with
  | nil => rfl
  | cons r rest ih =>
    cases hr : r.address with
    | none => simp [List.filter_cons, List.filterMap_cons, hr, ih]
    | some b =>
      by_cases hb : b = a
      · subst hb
        simp [List.filter_cons, List.filterMap_cons, hr, ih, List.count_cons]
      · simp [List.filter_cons, List.filterMap_cons, hr, ih, List.count_cons, hb]

theorem filterMap_address_length :
    ∀ l : List CallRecord, (∀ r ∈ l, r.address.isSome) →
      (l.filterMap (fun r => r.address)).length = l.length := by
  intro l
  induction l with
  | nil => intro _; rfl
  | cons r rest ih =>
    intro h
    obtain ⟨b, hb⟩ := Option.isSome_iff_exists.mp (h r (List.mem_cons_self r rest))
    rw [List.filterMap_cons, hb]
    simp [ih (fun x hx => h x (List.mem_cons_of_mem r hx))]

theorem paretoSum_eq_grand (input : List CallRecord) (s e : Nat)
    (hle : (addrKeys input s e).length ≤ 50) :
    paretoSum input s e = grandTotalCalls input s e := by
  unfold paretoSum paretoBase
  have hlen : (sortByLe (fun x y => decide (y.2 ≤ x.2))
      ((addrKeys input s e).map (fun a => (a, total_calls_at input s e a)))).length ≤ 50 := by
    rw [length_sortByLe, List.length_map]; exact hle
  rw [List.take_of_length_le hlen]
  have hperm := (perm_sortByLe (fun x y => decide (y.2 ≤ x.2))
    ((addrKeys input s e).map (fun a => (a, total_calls_at input s e a)))).map
      (fun p : String × Nat => p.2)
  rw [hperm.sum_eq, List.map_map]
  have hfun : ((fun p : String × Nat => p.2) ∘ fun a => (a, total_calls_at input s e a)) =
      fun a => (addrValues input s e).count a := by
    funext a
    exact length_filter_address_eq_count a (addressedCalls input s e)
  rw [hfun]
  unfold addrKeys
  rw [List.sum_map_count_dedup_eq_length]
  unfold addrValues grandTotalCalls
  exact filterMap_address_length _ (fun r hr => (List.mem_filter.mp hr).2)

/-! ### C5 -/

/-- C5 counterexample: with 51 addresses of one call each, the last returned
row has `cumulative_pct = 100` and `cumulative_calls = 50`, while the grand
total over all addresses is 51 — the denominator is the calls sum of the
returned top-50 rows (`df['calls'].sum()` after `LIMIT 50`), not the grand
total, under which the value would be 50/51*100 ≠ 100. -/
theorem pareto_grand_total_counterexample :
    (load_pareto_data paretoInput51 0 100).getLast? =
      some { address := "49", calls := 1, rank := 50, cumulative_calls := 50,
             cumulative_pct := 100 } ∧
    grandTotalCalls paretoInput51 0 100 = 51 ∧
    ¬((100 : ℚ) = (50 : ℚ) / (51 : ℚ) * 100) := by
  with_unfolding_all decide

/-- C5 (amended): `cumulative_pct` is monotonically non-decreasing down the
rows; it is the cumulative call count as a percentage of the calls sum of the
returned (top-50) rows — so the final row always equals exactly 100 — and that
denominator equals the grand total over all addresses precisely when all
addresses are included (at most 50 distinct addresses). -/
theorem pareto_cumulative_pct (input : List CallRecord) (s e : Nat) :
    List.Pairwise (fun x y => x.cumulative_pct ≤ y.cumulative_pct)
      (load_pareto_data input s e) ∧
    (∀ row ∈ load_pareto_data input s e,
      row.cumulative_pct =
        (row.cumulative_calls : ℚ) / (paretoSum input s e : ℚ) * 100) ∧
    (∀ row, (load_pareto_data input s e).getLast? = some row →
      row.cumulative_pct = 100) ∧
    ((addrKeys input s e).length ≤ 50 →
      paretoSum input s e = grandTotalCalls input s e) := by
  refine ⟨?_, ?_, ?_, paretoSum_eq_grand input s e⟩
  · have hp := paretoScan_pairwise ((paretoSum input s e : Nat) : ℚ)
      (paretoBase input s e) 1 0
    refine hp.imp_of_mem ?_
    intro x y hx hy hcum
    rw [paretoScan_pct _ _ 1 0 x hx, paretoScan_pct _ _ 1 0 y hy]
    exact qdiv_mul_mono (by exact_mod_cast hcum) (by positivity)
  · intro row hrow
    exact paretoScan_pct _ (paretoBase input s e) 1 0 row hrow
  · intro row hlast
    have hbase : paretoBase input s e ≠ [] := by
      intro h0
      unfold load_pareto_data at hlast
      rw [h0] at hlast
      simp [paretoScan] at hlast
    obtain ⟨row2, hl2, hcum2, hpct2⟩ :=
      paretoScan_getLast ((paretoSum input s e : Nat) : ℚ) (paretoBase input s e) 1 0 hbase
    have hrr : row2 = row := Option.some.inj (hl2.symm.trans hlast)
    subst hrr
    rw [hpct2]
    have hpos : 0 < paretoSum input s e := by
      cases hb : paretoBase input s e with
      | nil => exact absurd hb hbase
      | cons p ps =>
        have hp2 : 0 < p.2 := paretoBase_snd_pos (by rw [hb]; exact List.mem_cons_self p ps)
        unfold paretoSum
        rw [hb, List.map_cons, List.sum_cons]
        omega
    have hsum : 0 + ((paretoBase input s e).map (fun p => p.2)).sum =
        paretoSum input s e := by
      unfold paretoSum
      omega
    rw [hsum]
    rw [div_self (by exact_mod_cast Nat.pos_iff_ne_zero.mp hpos), one_mul]

/-- The second output row of `load_pareto_data paretoInputSmall 0 100`. -/
def paretoRowB : ParetoRow :=
  { address := "B", calls := 1, rank := 2, cumulative_calls := 3,
    cumulative_pct := 100 }

/-- Witness for the amended C5 at `paretoInputSmall` (2 addresses). -/
theorem pareto_cumulative_pct_witness :
    (paretoRowB.cumulative_pct =
      (paretoRowB.cumulative_calls : ℚ) / (paretoSum paretoInputSmall 0 100 : ℚ) * 100) ∧
    paretoRowB.cumulative_pct = 100 ∧
    paretoSum paretoInputSmall 0 100 = grandTotalCalls paretoInputSmall 0 100 := by
  refine ⟨?_, ?_, ?_⟩
  · exact (pareto_cumulative_pct paretoInputSmall 0 100).2.1 paretoRowB
      (by with_unfolding_all decide)
  · exact (pareto_cumulative_pct paretoInputSmall 0 100).2.2.1 paretoRowB
      (by with_unfolding_all decide)
  · exact (pareto_cumulative_pct paretoInputSmall 0 100).2.2.2 (by decide)
